import Mathlib

/-!
Verification development for the Storyblok field-mapping engine
(src/lib/mapper.ts of storyblok-graphql-codegen-terraform).

The engine translates an annotated GraphQL type graph into Storyblok
component definitions.  We shallowly embed the data model (GraphQL AST
nodes, directive values, the component-field variants) and the mapping
functions (toComponent, toSchema, toComponentField, toArrayComponentField,
toFieldGroupComponentField, maybeArg and the integration option builders)
as executable Lean definitions, then prove or refute the frozen claims
about them.

Helper modules of the repository that are not part of the mapper source
(graphql.ts, value.ts, the change-case utilities and terraform-generator
wrappers) are modelled from the specification; each such definition is
marked with a doc comment starting "Modelled from the spec:".
-/

namespace Storyblok

/-! ## GraphQL AST data model -/

/-- A constant literal value carried by a directive argument.  Mirrors the
graphql-js value nodes used by the mapper: StringValueNode, IntValueNode
(whose runtime value is a string), BooleanValueNode, EnumValueNode and
ConstListValueNode. -/
inductive ValueNode where
  | stringValue (v : String)
  | intValue (v : String)
  | booleanValue (v : Bool)
  | enumValue (v : String)
  | listValue (values : List ValueNode)

/-- A directive argument: a name and a constant value. -/
structure Argument where
  name : String
  value : ValueNode

/-- A directive annotation: a name plus key/value arguments. -/
structure Directive where
  name : String
  arguments : List Argument

/-- A GraphQL type reference: named type, list-of, or non-null wrapper. -/
inductive TypeNode where
  | namedType (name : String)
  | listType (ofType : TypeNode)
  | nonNullType (ofType : TypeNode)

/-- A field definition: name, type reference, optional description and
directive list. -/
structure FieldDefinitionNode where
  name : String
  description : Option String
  type : TypeNode
  directives : List Directive

/-- An object type definition node (the AST node of an object type). -/
structure ObjectTypeDefinitionNode where
  name : String
  description : Option String
  fields : Option (List FieldDefinitionNode)
  directives : List Directive

/-- One member of an enum type definition. -/
structure EnumValueDef where
  name : String
  description : Option String

/-- The AST node of a union type: the (optional) list of member type
names. -/
structure UnionTypeAst where
  types : Option (List String)

/-- A named type registered in the schema, as returned by
GraphQLSchema.getType: object, union and enum types carry their AST node
(possibly absent for union/enum), everything else is a scalar. -/
inductive GraphQLNamedType where
  | objectT (astNode : ObjectTypeDefinitionNode)
  | unionT (name : String) (astNode : Option UnionTypeAst)
  | enumT (name : String) (astNode : Option (List EnumValueDef))
  | scalarT (name : String)

/-- The runtime name of a schema type. -/
def GraphQLNamedType.name : GraphQLNamedType → String
  | .objectT ast => ast.name
  | .unionT n _ => n
  | .enumT n _ => n
  | .scalarT n => n

/-- The type graph: lookup of named types.  Supplied read-only by the
excluded parsing collaborator. -/
structure GraphQLSchema where
  types : List GraphQLNamedType

/-- Lookup a type by name, as GraphQLSchema.getType does. -/
def GraphQLSchema.getType (s : GraphQLSchema) (n : String) : Option GraphQLNamedType :=
  s.types.find? (fun t => t.name == n)

/-! ## Modelled helper utilities (graphql.ts / value.ts / change-case) -/

/-- Modelled from the spec: the value-coercion utility uniqueBy with the
identity key, i.e. uniqueness filtering that keeps the first occurrence of
each element (value.ts is outside src).  Auxiliary recursion carrying the
set of already seen elements. -/
def uniqFirstAux [DecidableEq α] : List α → List α → List α
  | [], _ => []
  | x :: xs, seen =>
    if x ∈ seen then uniqFirstAux xs seen else x :: uniqFirstAux xs (x :: seen)

/-- Modelled from the spec: uniqueness filtering keeping first occurrences
(the uniqueBy helper of value.ts applied with the identity key, which is
the only key used in the mapper). -/
def uniqFirst [DecidableEq α] (l : List α) : List α :=
  uniqFirstAux l []

/-- Modelled from the spec: resolve(holder, directiveName, argKey): scan
the directive list for the first directive whose name matches, then look
up the argument key inside it; absent otherwise (Directive Resolver of
graphql.ts, outside src). -/
def findDirectiveValue (dirs : List Directive) (dname key : String) : Option ValueNode :=
  (dirs.find? (fun d => d.name == dname)).bind
    (fun d => (d.arguments.find? (fun a => a.name == key)).map Argument.value)

/-- Modelled from the spec: findStoryblokValue resolves an argument of the
storyblok directive attached to a type definition. -/
def findStoryblokValue (node : ObjectTypeDefinitionNode) (key : String) : Option ValueNode :=
  findDirectiveValue node.directives "storyblok" key

/-- Modelled from the spec: findStoryblokFieldValue resolves an argument of
the storyblokField directive attached to a field definition. -/
def findStoryblokFieldValue (f : FieldDefinitionNode) (key : String) : Option ValueNode :=
  findDirectiveValue f.directives "storyblokField" key

/-- Modelled from the spec: hasDirective checks whether a holder carries a
directive of the given name. -/
def hasDirective (f : FieldDefinitionNode) (dname : String) : Bool :=
  f.directives.any (fun d => d.name == dname)

/-- The runtime .value access of a string-shaped value node (string, int
and enum nodes all carry a string value in graphql-js). -/
def ValueNode.asStr? : ValueNode → Option String
  | .stringValue v => some v
  | .intValue v => some v
  | .enumValue v => some v
  | _ => none

/-- The runtime .value access of a boolean value node. -/
def ValueNode.asBool? : ValueNode → Option Bool
  | .booleanValue v => some v
  | _ => none

/-- The runtime .values access of a const list value node. -/
def ValueNode.asList? : ValueNode → Option (List ValueNode)
  | .listValue vs => some vs
  | _ => none

/-- String-valued storyblokField directive argument of a field. -/
def sbFieldStr (f : FieldDefinitionNode) (key : String) : Option String :=
  (findStoryblokFieldValue f key).bind ValueNode.asStr?

/-- Boolean-valued storyblokField directive argument of a field. -/
def sbFieldBool (f : FieldDefinitionNode) (key : String) : Option Bool :=
  (findStoryblokFieldValue f key).bind ValueNode.asBool?

/-- List-valued storyblokField directive argument of a field. -/
def sbFieldList (f : FieldDefinitionNode) (key : String) : Option (List ValueNode) :=
  (findStoryblokFieldValue f key).bind ValueNode.asList?

/-- String-valued storyblok directive argument of a type definition. -/
def sbTypeStr (node : ObjectTypeDefinitionNode) (key : String) : Option String :=
  (findStoryblokValue node key).bind ValueNode.asStr?

/-- Modelled from the spec: JavaScript truthiness of an optional string
(undefined and the empty string are falsy). -/
def strTruthy : Option String → Option String
  | some s => if s = "" then none else some s
  | none => none

/-- Modelled from the spec: Boolean(x) || undefined, the idiom the mapper
uses to emit an optional flag that is either true or absent. -/
def optTrue (b : Bool) : Option Bool :=
  if b then some true else none

/-- Modelled from the spec: JavaScript Number applied to the string payload
of an integer literal node (the only use the mapper makes of it). -/
def jsNumber (s : String) : Int :=
  (s.toInt?).getD 0

/-- Directive-sourced numeric bound: ifValue(find...IntValue, Number). -/
def intArg (f : FieldDefinitionNode) (key : String) : Option Int :=
  (sbFieldStr f key).map jsNumber

/-- Modelled from the spec: word splitting used by the case-conversion
utilities (change-case is an external library treated as a pure string
function); splits on spaces, underscores, hyphens and uppercase letters. -/
def splitWordsAux : List Char → List Char → List (List Char)
  | [], acc => if acc.isEmpty then [] else [acc.reverse]
  | c :: cs, acc =>
    if c = ' ' ∨ c = '_' ∨ c = '-' then
      if acc.isEmpty then splitWordsAux cs [] else acc.reverse :: splitWordsAux cs []
    else if c.isUpper then
      if acc.isEmpty then splitWordsAux cs [c] else acc.reverse :: splitWordsAux cs [c]
    else
      splitWordsAux cs (c :: acc)

/-- Lower-case a word. -/
def lowerWord (w : List Char) : String :=
  String.mk (w.map Char.toLower)

/-- Capitalize the first letter of a word, lower-casing the rest. -/
def capWord : List Char → String
  | [] => ""
  | c :: rest => String.mk (c.toUpper :: rest.map Char.toLower)

/-- Modelled from the spec: snakeCase as a pure string function. -/
def snakeCase (s : String) : String :=
  String.intercalate "_" ((splitWordsAux s.data []).map lowerWord)

/-- Modelled from the spec: camelCase as a pure string function. -/
def camelCase (s : String) : String :=
  match splitWordsAux s.data [] with
  | [] => ""
  | w :: ws => lowerWord w ++ String.join (ws.map capWord)

/-- Modelled from the spec: paramCase as a pure string function. -/
def paramCase (s : String) : String :=
  String.intercalate "-" ((splitWordsAux s.data []).map lowerWord)

/-- Modelled from the spec: sentenceCase as a pure string function. -/
def sentenceCase (s : String) : String :=
  match splitWordsAux s.data [] with
  | [] => ""
  | w :: ws => String.intercalate " " (capWord w :: ws.map lowerWord)

/-- Modelled from the spec: typeName unwraps list and non-null modifiers to
reach the referenced named type (graphql.ts, outside src). -/
def typeName : TypeNode → String
  | .namedType n => n
  | .listType t => typeName t
  | .nonNullType t => typeName t

/-- Does the type reference carry the NonNullType kind at its outermost
position (field.type.kind === NonNullType)? -/
def isNonNullType : TypeNode → Bool
  | .nonNullType _ => true
  | _ => false

/-! ## Output data model: ComponentField variants -/

/-- An option entry of an enum-backed option/options field:
name (description or sentence-cased symbol) and value (the symbol). -/
structure OptionEntry where
  name : String
  value : String
deriving DecidableEq

/-- Modelled from the spec: a value embedded in the generated configuration
is either a quoted literal or an unquoted reference expression (the
terraform-generator arg() wrapper distinguishes the two). -/
inductive TfValue where
  | lit (s : String)
  | ref (s : String)
deriving DecidableEq

/-- One name/value option of a commercetools custom field. -/
structure CtOption where
  name : String
  value : TfValue
deriving DecidableEq

/-- The field-specification variants produced by the mapper.  Each
constructor mirrors one object literal returned by toComponentField or
toArrayComponentField; attributes that the source emits as fixed constants
(the type tag, source, use_uuid, restrict_components on bloks,
rich_markdown, field_type) are carried explicitly. -/
inductive ComponentField where
  | text (rtl : Option Bool) (max_length : Option Int) (regex : Option String)
  | textarea (rtl : Option Bool) (max_length : Option Int)
  | markdown (rtl : Option Bool) (max_length : Option Int) (rich_markdown : Bool)
      (customize_toolbar : Option Bool) (toolbar : Option (List String))
  | richtext (rtl : Option Bool) (max_length : Option Int)
      (customize_toolbar : Option Bool) (toolbar : Option (List String))
      (allow_target_blank : Option Bool) (restrict_components : Option Bool)
      (component_whitelist : Option (List String))
  | number (decimals_value : Option Int) (steps_value : Option Int)
      (min_value : Option Int) (max_value : Option Int)
  | boolean
  | datetime (disable_time : Option Bool)
  | asset (filetypes : List String)
  | multiasset (filetypes : List String)
  | multilink (link_scope : Option String) (force_link_scope : Option Bool)
      (restrict_content_types : Option Bool) (component_whitelist : Option (List String))
      (asset_link_type : Option Bool) (allow_target_blank : Option Bool)
      (email_link_type : Option Bool) (show_anchor : Option Bool)
  | optionEnum (options : List OptionEntry)
  | optionStories (source : String) (filter_content_type : Option (List String))
      (folder_slug : Option String) (use_uuid : Bool)
  | optionDatasource (datasource_slug : String) (source : String) (use_uuid : Bool)
  | optionsEnum (options : List OptionEntry) (minimum : Option Int) (maximum : Option Int)
  | optionsStories (source : String) (filter_content_type : Option (List String))
      (use_uuid : Bool) (folder_slug : Option String)
  | optionsDatasource (datasource_slug : String) (source : String) (use_uuid : Bool)
  | bloks (component_whitelist : Option (List String)) (restrict_components : Bool)
      (minimum : Option Int) (maximum : Option Int)
  | table
  | custom (field_type : String) (options : Option (List CtOption))
deriving DecidableEq

/-- The type tag of a produced field spec, as the source writes into the
type attribute of each object literal. -/
def ComponentField.tag : ComponentField → String
  | .text _ _ _ => "text"
  | .textarea _ _ => "textarea"
  | .markdown _ _ _ _ _ => "markdown"
  | .richtext _ _ _ _ _ _ _ => "richtext"
  | .number _ _ _ _ => "number"
  | .boolean => "boolean"
  | .datetime _ => "datetime"
  | .asset _ => "asset"
  | .multiasset _ => "multiasset"
  | .multilink _ _ _ _ _ _ _ _ => "multilink"
  | .optionEnum _ => "option"
  | .optionStories _ _ _ _ => "option"
  | .optionDatasource _ _ _ => "option"
  | .optionsEnum _ _ _ => "options"
  | .optionsStories _ _ _ _ => "options"
  | .optionsDatasource _ _ _ => "options"
  | .bloks _ _ _ _ => "bloks"
  | .table => "table"
  | .custom _ _ => "custom"

/-! ## Integration option builders -/

/-- The commercetools integration configuration record. -/
structure CtConfig where
  projectKey : String
  endpoint : String
  clientId : String
  clientSecret : String
  locale : String

/-- maybeArg: embed a configured string as an unquoted reference expression
when it starts with one of the recognized reference markers (var. or
local., plus any extra markers supplied by the caller), and as a quoted
literal otherwise. -/
def maybeArg (value : String) (extraMarkers : List String) : TfValue :=
  if ("var." :: "local." :: extraMarkers).any (fun p => value.startsWith p) then
    TfValue.ref value
  else
    TfValue.lit value

/-- ctConnectionOptions: the fixed connection option set of
sb-commercetools custom fields. -/
def ctConnectionOptions (cfg : CtConfig) : List CtOption :=
  [ { name := "endpoint", value := maybeArg cfg.endpoint [] },
    { name := "clientId", value := maybeArg cfg.clientId [] },
    { name := "clientSecret", value := maybeArg cfg.clientSecret [] },
    { name := "locale", value := maybeArg cfg.locale [] } ]

/-- ctCategoryOptions: the fixed option set of ct-category custom
fields. -/
def ctCategoryOptions (cfg : CtConfig) : List CtOption :=
  [ { name := "projectKey", value := maybeArg cfg.projectKey [] },
    { name := "clientId", value := maybeArg cfg.clientId [] },
    { name := "clientSecret", value := maybeArg cfg.clientSecret [] } ]

/-! ## Field classifier and builders -/

/-- Enum value extraction used on filetypes/linkFeatures list entries:
v.kind === EnumValue ? v.value : undefined. -/
def enumVal? : ValueNode → Option String
  | .enumValue e => some e
  | _ => none

/-- Param-cased enum extraction used on toolbar list entries. -/
def enumParam? : ValueNode → Option String
  | .enumValue e => some (paramCase e)
  | _ => none

/-- Snake-cased string extraction used on blokTypes list entries:
v.kind === StringValue ? snakeCase(v.value) : undefined. -/
def strSnake? : ValueNode → Option String
  | .stringValue s => some (snakeCase s)
  | _ => none

/-- The filetypes attribute of asset/multiasset fields: enum entries of the
filetypes directive list argument, defaulting to the empty list. -/
def filetypesOf (f : FieldDefinitionNode) : List String :=
  ((sbFieldList f "filetypes").map (fun vs => vs.filterMap enumVal?)).getD []

/-- The option entries of an enum-backed option/options field. -/
def enumOptions (vals : List EnumValueDef) : List OptionEntry :=
  vals.map (fun v => { name := (v.description).getD (sentenceCase v.name), value := v.name })

/-- Truthiness of components?.length: a present, non-empty list. -/
def hasLen (o : Option (List α)) : Bool :=
  match o with
  | some l => !l.isEmpty
  | none => false

/-- linkFeatures?.includes(name) || undefined. -/
def ofFeature (lf : Option (List String)) (feature : String) : Option Bool :=
  match lf with
  | none => none
  | some l => optTrue (l.contains feature)

/-- The deduplicated snake-cased component names of the blokTypes directive
list argument, as computed for richtext fields. -/
def blokComponentsOf (f : FieldDefinitionNode) : Option (List String) :=
  (sbFieldList f "blokTypes").map (fun vs => uniqFirst (vs.filterMap strSnake?))

/-- The toolbar of a richtext field: param-cased enum entries of the
toolbar directive, concatenated with the sentinel blok entry when the
blokTypes whitelist is non-empty (concat of undefined appends a single
undefined entry), undefined-filtered and deduplicated.  The whole chain is
absent when the toolbar directive itself is absent. -/
def richtextToolbarOf (f : FieldDefinitionNode) : Option (List String) :=
  (sbFieldList f "toolbar").map (fun vs =>
    uniqFirst (((vs.map enumParam?) ++
      (if hasLen (blokComponentsOf f) then [some "blok"] else [none])).filterMap id))

/-- allow_target_blank of a richtext field: some linkFeatures enum entry is
newTab, or absent when the linkFeatures directive is absent. -/
def allowTB (f : FieldDefinitionNode) : Option Bool :=
  match sbFieldList f "linkFeatures" with
  | none => none
  | some vs =>
      optTrue (vs.any (fun v =>
        match v with
        | .enumValue e => e == "newTab"
        | _ => false))

/-- The richtext builder of toComponentField. -/
def richtextField (f : FieldDefinitionNode) : ComponentField :=
  .richtext (sbFieldBool f "rtl") (intArg f "max")
    (optTrue (richtextToolbarOf f).isSome) (richtextToolbarOf f)
    (allowTB f) (optTrue (blokComponentsOf f).isSome) (blokComponentsOf f)

/-- The markdown builder of toComponentField. -/
def markdownField (f : FieldDefinitionNode) : ComponentField :=
  let toolbar := (sbFieldList f "toolbar").map (fun vs => (vs.map enumParam?).filterMap id)
  .markdown (sbFieldBool f "rtl") (intArg f "max") true (optTrue toolbar.isSome) toolbar

/-- The number builder of toComponentField. -/
def numberField (f : FieldDefinitionNode) : ComponentField :=
  .number ((sbFieldStr f "decimals").map jsNumber) ((sbFieldStr f "steps").map jsNumber)
    (intArg f "min") (intArg f "max")

/-- The multilink builder of toComponentField (StoryblokLink case). -/
def mkMultilink (f : FieldDefinitionNode) : ComponentField :=
  let folder := sbFieldStr f "folder"
  let linkFeatures := (sbFieldList f "linkFeatures").map (fun vs => vs.filterMap enumVal?)
  let components := (sbFieldList f "blokTypes").map (fun vs => vs.filterMap strSnake?)
  .multilink folder (optTrue (strTruthy folder).isSome) (optTrue (hasLen components))
    components (ofFeature linkFeatures "assets") (ofFeature linkFeatures "newTab")
    (ofFeature linkFeatures "email") (ofFeature linkFeatures "anchor")

/-- Resolve union member names against the schema, keeping object types
and taking their AST nodes (map getType, filter isObjectType,
map astNode). -/
def resolveUnionMembers (schema : GraphQLSchema) (names : List String) :
    List ObjectTypeDefinitionNode :=
  names.filterMap (fun n =>
    match schema.getType n with
    | some (.objectT ast) => some ast
    | _ => none)

/-- The singular object/union builder: content-reference option when every
member type carries storyblok type contentType, bloks otherwise (with an
implicit 0..1 bound, 1..1 when the field is required). -/
def singularObjUnion (f : FieldDefinitionNode)
    (types : Option (List ObjectTypeDefinitionNode)) : ComponentField :=
  let isContentReference :=
    match types with
    | some l => l.all (fun a => sbTypeStr a "type" == some "contentType")
    | none => false
  if isContentReference then
    .optionStories "internal_stories"
      (types.map (fun l => l.map (fun a => snakeCase a.name)))
      (sbFieldStr f "folder") true
  else
    .bloks (types.map (fun l => l.map (fun a => snakeCase a.name))) true
      (some (if isNonNullType f.type then 1 else 0)) (some 1)

/-- The array object/union builder: content-reference options when every
member type carries storyblok type contentType or universal, bloks with
directive-sourced bounds otherwise. -/
def arrayObjUnion (f : FieldDefinitionNode)
    (types : Option (List ObjectTypeDefinitionNode)) : ComponentField :=
  let isContentReference :=
    match types with
    | some l =>
        l.all (fun a => ["contentType", "universal"].contains ((sbTypeStr a "type").getD ""))
    | none => false
  if isContentReference then
    .optionsStories "internal_stories"
      (types.map (fun l => l.map (fun a => snakeCase a.name)))
      true (sbFieldStr f "folder")
  else
    .bloks (types.map (fun l => l.map (fun a => snakeCase a.name))) true
      (intArg f "min") (intArg f "max")

/-- The sb-commercetools custom options of a singular CtTypeId field: the
connection options, the fixed limit 1, and the optional selectOnly entry
from the ctType directive argument. -/
def ctOptionsSingular (f : FieldDefinitionNode) (cfg : CtConfig) : List CtOption :=
  ctConnectionOptions cfg ++ [{ name := "limit", value := TfValue.lit "1" }] ++
    (match strTruthy (sbFieldStr f "ctType") with
     | some v => [{ name := "selectOnly", value := TfValue.lit v }]
     | none => [])

/-- The sb-commercetools custom options of a CtTypeId array field: the
connection options, the caller-supplied limit from the max directive
argument when present, and the optional selectOnly entry. -/
def ctOptionsArray (f : FieldDefinitionNode) (cfg : CtConfig) : List CtOption :=
  ctConnectionOptions cfg ++
    (match strTruthy (sbFieldStr f "max") with
     | some m => [{ name := "limit", value := TfValue.lit m }]
     | none => []) ++
    (match strTruthy (sbFieldStr f "ctType") with
     | some v => [{ name := "selectOnly", value := TfValue.lit v }]
     | none => [])

/-- The singular String builder: datasource-sourced option when a truthy
datasource argument is present, ct-category custom field when ctType is
category (requiring the integration configuration), then the
format-directed text/textarea/markdown/richtext dispatch. -/
def stringField (f : FieldDefinitionNode) (ctConfig : Option CtConfig) :
    Except String ComponentField :=
  match strTruthy (sbFieldStr f "datasource") with
  | some ds => Except.ok (.optionDatasource ds "internal" true)
  | none =>
    if sbFieldStr f "ctType" == some "category" then
      match ctConfig with
      | none => Except.error ("Commercetools config is required for " ++ f.name)
      | some cfg => Except.ok (.custom "ct-category" (some (ctCategoryOptions cfg)))
    else
      match sbFieldStr f "format" with
      | some "richtext" => Except.ok (richtextField f)
      | some "markdown" => Except.ok (markdownField f)
      | some "textarea" =>
          Except.ok (.textarea (sbFieldBool f "rtl") (intArg f "max"))
      | _ =>
          Except.ok (.text (sbFieldBool f "rtl") (intArg f "max") (sbFieldStr f "regex"))

/-- The well-known-scalar fallback dispatch of toComponentField: the switch
on the resolved type name reached when the schema lookup fails or matches
no object/union/enum rule. -/
def toComponentFieldFallback (f : FieldDefinitionNode) (t : TypeNode)
    (ctConfig : Option CtConfig) : Except String ComponentField :=
  match typeName t with
  | "String" => stringField f ctConfig
  | "Boolean" => Except.ok .boolean
  | "Int" => Except.ok (numberField f)
  | "Float" => Except.ok (numberField f)
  | "Date" => Except.ok (.datetime (some true))
  | "DateTime" => Except.ok (.datetime none)
  | "CtTypeId" =>
    match ctConfig with
    | none => Except.error ("Commercetools config is required for type " ++ typeName t)
    | some cfg => Except.ok (.custom "sb-commercetools" (some (ctOptionsSingular f cfg)))
  | _ => Except.error ("Unsupported type " ++ typeName t)

/-- The object/union guard of the singular path: isObjectType(node) ||
(isUnionType(node) && node.astNode), yielding the (optional) member AST
list exactly as node.astNode?.types resolves it. -/
def objUnionMembers (schema : GraphQLSchema) :
    GraphQLNamedType → Option (Option (List ObjectTypeDefinitionNode))
  | .objectT ast => some (some [ast])
  | .unionT _ (some uast) => some ((uast.types).map (resolveUnionMembers schema))
  | _ => none

/-- toComponentField: classification of a singular field. -/
def toComponentField (f : FieldDefinitionNode) (t : TypeNode) (schema : GraphQLSchema)
    (ctConfig : Option CtConfig) : Except String ComponentField :=
  match schema.getType (typeName t) with
  | some node =>
    match node with
    | .enumT _ (some vals) => Except.ok (.optionEnum (enumOptions vals))
    | _ =>
      match typeName t with
      | "StoryblokAsset" => Except.ok (.asset (filetypesOf f))
      | "StoryblokLink" => Except.ok (mkMultilink f)
      | "StoryblokSeo" => Except.ok (.custom "seo-metatags" none)
      | "StoryblokTable" => Except.ok .table
      | _ =>
        match objUnionMembers schema node with
        | some types => Except.ok (singularObjUnion f types)
        | none => toComponentFieldFallback f t ctConfig
  | none => toComponentFieldFallback f t ctConfig

/-- The fallback switch of toArrayComponentField: String requires a truthy
datasource argument, CtTypeId requires the integration configuration,
everything else is an unsupported array type. -/
def toArrayFallback (f : FieldDefinitionNode) (t : TypeNode)
    (ctConfig : Option CtConfig) : Except String ComponentField :=
  match typeName t with
  | "String" =>
    match strTruthy (sbFieldStr f "datasource") with
    | none => Except.error ("Datasource is required for type " ++ typeName t)
    | some ds => Except.ok (.optionsDatasource ds "internal" true)
  | "CtTypeId" =>
    match ctConfig with
    | none => Except.error ("Commercetools config is required for type " ++ typeName t)
    | some cfg => Except.ok (.custom "sb-commercetools" (some (ctOptionsArray f cfg)))
  | _ => Except.error ("Unsupported array type " ++ typeName t)

/-- toArrayComponentField: classification of a list field. -/
def toArrayComponentField (f : FieldDefinitionNode) (t : TypeNode)
    (schema : GraphQLSchema) (ctConfig : Option CtConfig) : Except String ComponentField :=
  let node := schema.getType (typeName t)
  if (node.map GraphQLNamedType.name) = some "StoryblokAsset" then
    Except.ok (.multiasset (filetypesOf f))
  else
    match node with
    | some (.objectT ast) => Except.ok (arrayObjUnion f (some [ast]))
    | some (.unionT _ uast) =>
        Except.ok (arrayObjUnion f ((uast.bind UnionTypeAst.types).map (resolveUnionMembers schema)))
    | some (.enumT _ (some vals)) =>
        Except.ok (.optionsEnum (enumOptions vals) (intArg f "min") (intArg f "max"))
    | _ => toArrayFallback f t ctConfig

/-- Modelled from the spec: switchArray dispatches a field type reference
on its list-of (array) versus scalar shape, unwrapping one outer non-null
modifier (graphql.ts, outside src). -/
def switchArray (t : TypeNode) (fArr : TypeNode → Except String ComponentField)
    (fOther : TypeNode → Except String ComponentField) : Except String ComponentField :=
  match t with
  | .listType sub => fArr sub
  | .nonNullType (.listType sub) => fArr sub
  | _ => fOther t

/-- classify: the per-field dispatch of toSchema between the array and the
singular classifier. -/
def classifyField (f : FieldDefinitionNode) (schema : GraphQLSchema)
    (ctConfig : Option CtConfig) : Except String ComponentField :=
  switchArray f.type (fun sub => toArrayComponentField f sub schema ctConfig)
    (fun t => toComponentField f t schema ctConfig)

/-! ## Grouping resolver -/

/-- The two synthesized grouping kinds. -/
inductive GroupKind where
  | section
  | tab
deriving DecidableEq

/-- The directive argument name of a grouping kind. -/
def GroupKind.str : GroupKind → String
  | .section => "section"
  | .tab => "tab"

/-- Render an optional string the way a JavaScript template literal renders
its interpolation: the string itself, or undefined when absent. -/
def strOrUndefined : Option String → String
  | some s => s
  | none => "undefined"

/-- The mapping key of a synthesized group: the camel-cased join of the
literal word section/tab with the group display name. -/
def groupKeyName (kind : GroupKind) (name : String) : String :=
  camelCase (kind.str ++ " " ++ name)

/-- A synthesized section/tab grouping field: kind, display name, and the
member key list. -/
structure GroupField where
  kind : GroupKind
  display_name : String
  keys : List String
deriving DecidableEq

/-- toFieldGroupComponentField: the member key list is every field name
carrying the exact section/tab value in declaration order; a tab group
additionally appends the deduplicated synthesized section keys of every
field that carries this tab value together with a section argument. -/
def toFieldGroupComponentField (node : ObjectTypeDefinitionNode) (kind : GroupKind)
    (name : String) : GroupField :=
  { kind := kind
    display_name := name
    keys :=
      ((node.fields.getD []).filter
          (fun f => sbFieldStr f kind.str == some name)).map FieldDefinitionNode.name ++
        (if kind = .tab then
          uniqFirst
            (((node.fields.getD []).filter
                (fun f => sbFieldStr f "tab" == some name &&
                  (findStoryblokFieldValue f "section").isSome)).map
              (fun f => groupKeyName .section (strOrUndefined (sbFieldStr f "section"))))
        else []) }

/-- getUniqueDirectiveProps: the distinct section/tab directive values
across all fields, in first-occurrence order. -/
def getUniqueDirectiveProps (node : ObjectTypeDefinitionNode) (kind : GroupKind) :
    List String :=
  (uniqFirst ((node.fields.getD []).map (fun f => sbFieldStr f kind.str))).filterMap id

/-! ## Component assembler (toSchema / toComponent) -/

/-- The attributes common to every ordinary field entry of the schema
mapping, together with the classified field specification. -/
structure FieldEntry where
  position : Nat
  translatable : Option Bool
  default_value : Option String
  no_translate : Option String
  display_name : String
  required : Bool
  description : Option String
  field : ComponentField
deriving DecidableEq

/-- One value of the schema mapping: an ordinary field entry or a
synthesized section/tab group with its position. -/
inductive SchemaValue where
  | fieldV (e : FieldEntry)
  | groupV (position : Nat) (g : GroupField)
deriving DecidableEq

/-- The position attribute of a schema mapping value. -/
def SchemaValue.position : SchemaValue → Nat
  | .fieldV e => e.position
  | .groupV p _ => p

/-- The position of one schema mapping entry. -/
def entryPos (x : String × SchemaValue) : Nat :=
  x.2.position

/-- Build the ordinary entry of one included field at a given position. -/
def mkFieldEntry (f : FieldDefinitionNode) (pos : Nat) (cf : ComponentField) : FieldEntry :=
  { position := pos
    translatable := sbFieldBool f "translatable"
    default_value := sbFieldStr f "default"
    no_translate := sbFieldStr f "excludeFromExport"
    display_name := (sbFieldStr f "displayName").getD (sentenceCase f.name)
    required := isNonNullType f.type
    description := f.description
    field := cf }

/-- The declared fields that carry the storyblokField directive, i.e. the
fields contributing ordinary entries to the schema mapping. -/
def includedFields (node : ObjectTypeDefinitionNode) : List FieldDefinitionNode :=
  (node.fields.getD []).filter (fun f => hasDirective f "storyblokField")

/-- The number of declared fields (node.fields?.length ?? 0). -/
def declaredCount (node : ObjectTypeDefinitionNode) : Nat :=
  (node.fields.getD []).length

/-- The distinct section directive values in first-occurrence order. -/
def sectionNames (node : ObjectTypeDefinitionNode) : List String :=
  getUniqueDirectiveProps node .section

/-- The distinct tab directive values in first-occurrence order. -/
def tabNames (node : ObjectTypeDefinitionNode) : List String :=
  getUniqueDirectiveProps node .tab

/-- Classify the included fields in order, pairing each name with its
entry; the position counter starts at the given value and the first
classification error aborts. -/
def normalEntriesAux (schema : GraphQLSchema) (ctConfig : Option CtConfig) :
    Nat → List FieldDefinitionNode → Except String (List (String × SchemaValue))
  | _, [] => Except.ok []
  | pos, f :: fs =>
    match classifyField f schema ctConfig with
    | Except.error e => Except.error e
    | Except.ok cf =>
      match normalEntriesAux schema ctConfig (pos + 1) fs with
      | Except.error e => Except.error e
      | Except.ok rest =>
          Except.ok ((f.name, SchemaValue.fieldV (mkFieldEntry f pos cf)) :: rest)

/-- The synthesized group entries of one kind: each group name yields a
camel-cased key and a group value at consecutive positions from the given
base. -/
def groupEntries (node : ObjectTypeDefinitionNode) (kind : GroupKind) :
    Nat → List String → List (String × SchemaValue)
  | _, [] => []
  | pos, name :: rest =>
    (groupKeyName kind name,
      SchemaValue.groupV pos (toFieldGroupComponentField node kind name)) ::
      groupEntries node kind (pos + 1) rest

/-- toSchema as an ordered mapping: ordinary entries for the fields
carrying the storyblokField directive (positions from 0), then section
groups (positions offset by the declared field count), then tab groups
(positions further offset by the section count). -/
def toSchemaEntries (node : ObjectTypeDefinitionNode) (schema : GraphQLSchema)
    (ctConfig : Option CtConfig) : Except String (List (String × SchemaValue)) :=
  match normalEntriesAux schema ctConfig 0 (includedFields node) with
  | Except.error e => Except.error e
  | Except.ok normal =>
      Except.ok (normal ++
        groupEntries node .section (declaredCount node) (sectionNames node) ++
        groupEntries node .tab (declaredCount node + (sectionNames node).length)
          (tabNames node))

/-- toIconValue: block_at maps to the literal block-@, every other icon
name has its underscores replaced by hyphens. -/
def toIconValue (v : String) : String :=
  if v = "block_at" then "block-@" else (v.replace "_" "-")

/-- The preview display selection: a preview directive value naming an
existing field becomes the preview-field selector, any other non-empty
value becomes a preview template string, absence yields neither. -/
def previewField (node : ObjectTypeDefinitionNode) : Option String × Option String :=
  match strTruthy (sbTypeStr node "preview") with
  | none => (none, none)
  | some v =>
    if (node.fields.getD []).any (fun f => f.name == v) then
      (some (snakeCase v), none)
    else
      (none, some v)

/-- The assembled component record. -/
structure Component where
  name : String
  space_id : Int
  is_root : Bool
  is_nestable : Bool
  icon : Option String
  color : Option String
  image : Option String
  display_name : Option String
  component_group_uuid : Option String
  schema : List (String × SchemaValue)
  preview_field : Option String
  preview_tmpl : Option String
deriving DecidableEq

/-- toComponent: assemble the full component record of one type
definition.  The component group resource of the caller is represented by
its uuid attribute reference. -/
def toComponent (node : ObjectTypeDefinitionNode) (spaceId : Int)
    (componentGroupUuid : Option String) (schema : GraphQLSchema)
    (ctConfig : Option CtConfig) : Except String Component :=
  match toSchemaEntries node schema ctConfig with
  | Except.error e => Except.error e
  | Except.ok entries =>
      Except.ok
        { name := snakeCase node.name
          space_id := spaceId
          is_root := ["contentType", "universal"].contains ((sbTypeStr node "type").getD "")
          is_nestable := !(sbTypeStr node "type" == some "contentType")
          icon := (sbTypeStr node "icon").map toIconValue
          color := sbTypeStr node "color"
          image := sbTypeStr node "image"
          display_name := sbTypeStr node "displayName"
          component_group_uuid := componentGroupUuid
          schema := entries
          preview_field := (previewField node).1
          preview_tmpl := (previewField node).2 }

/-! ## General lemmas about the schema assembly -/

/-- Consecutive natural numbers: natRange base len lists
base, base+1, ..., base+len-1. -/
def natRange : Nat → Nat → List Nat
  | _, 0 => []
  | base, n + 1 => base :: natRange (base + 1) n

lemma natRange_length : ∀ (b a : Nat), (natRange a b).length = b := by
  intro b
  induction b with
  | zero => intro a; rfl
  | succ n ih => intro a; simp [natRange, ih]

lemma natRange_append : ∀ (b a c : Nat),
    natRange a b ++ natRange (a + b) c = natRange a (b + c) := by
  intro b
  induction b with
  | zero => intro a c; simp [natRange]
  | succ n ih =>
    intro a c
    have h1 : a + (n + 1) = (a + 1) + n := by omega
    have h2 : n + 1 + c = (n + c) + 1 := by omega
    simp only [natRange, h1, h2, List.cons_append]
    rw [ih (a + 1)]

/-- The empty schema used by several concrete instances. -/
def emptySchema : GraphQLSchema := { types := [] }

lemma normalEntriesAux_spec (schema : GraphQLSchema) (cfg : Option CtConfig) :
    ∀ (fs : List FieldDefinitionNode) (pos : Nat) (r : List (String × SchemaValue)),
      normalEntriesAux schema cfg pos fs = Except.ok r →
      r.map Prod.fst = fs.map FieldDefinitionNode.name ∧
      r.map entryPos = natRange pos fs.length ∧
      ∀ (i : Nat) (hi : i < fs.length), ∃ cf,
        r[i]? = some ((fs.get ⟨i, hi⟩).name,
          SchemaValue.fieldV (mkFieldEntry (fs.get ⟨i, hi⟩) (pos + i) cf)) := by
  intro fs
  induction fs with
  | nil =>
    intro pos r h
    simp only [normalEntriesAux, Except.ok.injEq] at h
    subst h
    refine ⟨rfl, rfl, ?_⟩
    intro i hi
    simp at hi
  | cons f fs ih =>
    intro pos r h
    unfold normalEntriesAux at h
    cases hc : classifyField f schema cfg with
    | error e => rw [hc] at h; cases h
    | ok cf =>
      rw [hc] at h
      cases hr : normalEntriesAux schema cfg (pos + 1) fs with
      | error e => rw [hr] at h; cases h
      | ok rest =>
        rw [hr] at h
        simp only [Except.ok.injEq] at h
        subst h
        obtain ⟨h1, h2, h3⟩ := ih (pos + 1) rest hr
        refine ⟨by simp [h1], ?_, ?_⟩
        · simp only [List.map_cons, h2, natRange]
          rfl
        · intro i hi
          match i with
          | 0 => exact ⟨cf, by simp⟩
          | i + 1 =>
            obtain ⟨cf2, hcf2⟩ := h3 i (by simpa using hi)
            refine ⟨cf2, ?_⟩
            have hpos : pos + (i + 1) = (pos + 1) + i := by omega
            simpa [hpos] using hcf2

lemma groupEntries_fst (node : ObjectTypeDefinitionNode) (kind : GroupKind) :
    ∀ (names : List String) (pos : Nat),
      (groupEntries node kind pos names).map Prod.fst =
        names.map (groupKeyName kind) := by
  intro names
  induction names with
  | nil => intro pos; rfl
  | cons n rest ih => intro pos; simp [groupEntries, ih]

lemma groupEntries_pos (node : ObjectTypeDefinitionNode) (kind : GroupKind) :
    ∀ (names : List String) (pos : Nat),
      (groupEntries node kind pos names).map entryPos = natRange pos names.length := by
  intro names
  induction names with
  | nil => intro pos; rfl
  | cons n rest ih => intro pos; simp [groupEntries, natRange, ih, entryPos, SchemaValue.position]

lemma groupEntries_length (node : ObjectTypeDefinitionNode) (kind : GroupKind) :
    ∀ (names : List String) (pos : Nat),
      (groupEntries node kind pos names).length = names.length := by
  intro names
  induction names with
  | nil => intro pos; rfl
  | cons n rest ih => intro pos; simp [groupEntries, ih]

lemma toSchemaEntries_ok (node : ObjectTypeDefinitionNode) (schema : GraphQLSchema)
    (cfg : Option CtConfig) (es : List (String × SchemaValue))
    (h : toSchemaEntries node schema cfg = Except.ok es) :
    ∃ normal, normalEntriesAux schema cfg 0 (includedFields node) = Except.ok normal ∧
      es = normal ++
        groupEntries node .section (declaredCount node) (sectionNames node) ++
        groupEntries node .tab (declaredCount node + (sectionNames node).length)
          (tabNames node) := by
  unfold toSchemaEntries at h
  cases hn : normalEntriesAux schema cfg 0 (includedFields node) with
  | error e => rw [hn] at h; cases h
  | ok normal =>
    rw [hn] at h
    simp only [Except.ok.injEq] at h
    exact ⟨normal, rfl, h.symm⟩

lemma uniqFirstAux_append_singleton [DecidableEq α] (b : α) :
    ∀ (xs seen : List α), b ∉ xs → b ∉ seen →
      uniqFirstAux (xs ++ [b]) seen = uniqFirstAux xs seen ++ [b] := by
  intro xs
  induction xs with
  | nil =>
    intro seen hx hs
    simp [uniqFirstAux, hs]
  | cons x xs ih =>
    intro seen hx hs
    have hbx : b ≠ x := fun hbx => hx (hbx ▸ List.mem_cons_self x xs)
    have hx2 : b ∉ xs := fun h2 => hx (List.mem_cons_of_mem _ h2)
    by_cases hmem : x ∈ seen
    · simp only [List.cons_append, uniqFirstAux, if_pos hmem]
      exact ih seen hx2 hs
    · simp only [List.cons_append, uniqFirstAux, if_neg hmem, List.append_eq]
      rw [ih (x :: seen) hx2 (by simp [hs, hbx])]

lemma uniqFirst_append_singleton [DecidableEq α] (xs : List α) (b : α) (h : b ∉ xs) :
    uniqFirst (xs ++ [b]) = uniqFirst xs ++ [b] :=
  uniqFirstAux_append_singleton b xs [] h (List.not_mem_nil b)

lemma hasLen_isSome (o : Option (List α)) (h : hasLen o = true) : o.isSome = true := by
  cases o with
  | none => simp [hasLen] at h
  | some l => rfl

/-! ## Claim C8: determinism of the component builder -/

/-- C8: classification is deterministic: two invocations of toComponent on
the same type definition, space identifier, component group, schema and
integration configuration yield identical outputs.  The embedding is a
pure function of its arguments, with no hidden state, counters or
time-dependent values, so the two results are definitionally equal. -/
theorem claim8_theorem (node : ObjectTypeDefinitionNode) (spaceId : Int)
    (componentGroupUuid : Option String) (schema : GraphQLSchema)
    (ctConfig : Option CtConfig) :
    toComponent node spaceId componentGroupUuid schema ctConfig =
      toComponent node spaceId componentGroupUuid schema ctConfig := rfl

/-! ## Claim C9: literal versus reference embedding of configured values -/

/-- C9: every configured string passed into the integration option builders
is embedded as an unquoted reference expression exactly when it starts
with the var. or local. marker, and as a quoted literal, unchanged,
otherwise; both builders route every configured value through maybeArg
with no extra markers. -/
theorem claim9_theorem (v : String) (cfg : CtConfig) :
    (maybeArg v [] =
      if v.startsWith "var." || v.startsWith "local." then TfValue.ref v
      else TfValue.lit v) ∧
    (ctConnectionOptions cfg).map CtOption.value =
      [maybeArg cfg.endpoint [], maybeArg cfg.clientId [],
        maybeArg cfg.clientSecret [], maybeArg cfg.locale []] ∧
    (ctCategoryOptions cfg).map CtOption.value =
      [maybeArg cfg.projectKey [], maybeArg cfg.clientId [],
        maybeArg cfg.clientSecret []] := by
  refine ⟨?_, by simp [ctConnectionOptions], by simp [ctCategoryOptions]⟩
  simp [maybeArg, List.any_cons, List.any_nil, Bool.or_assoc]

/-! ## Claim C7: the required attribute equals the non-null marker -/

/-- The required attribute of the i-th entry of the schema mapping, when it
is an ordinary field entry. -/
def entryRequiredAt (es : List (String × SchemaValue)) (i : Nat) : Option Bool :=
  es[i]?.bind (fun p =>
    match p.2 with
    | SchemaValue.fieldV e => some e.required
    | SchemaValue.groupV _ _ => none)

/-- C7: for every declared field included in the output mapping, the
produced field entry's required attribute is true exactly when the field's
type reference is marked NonNullType. -/
theorem claim7_theorem (node : ObjectTypeDefinitionNode) (schema : GraphQLSchema)
    (cfg : Option CtConfig) (es : List (String × SchemaValue)) (i : Nat)
    (h : toSchemaEntries node schema cfg = Except.ok es)
    (hi : i < (includedFields node).length) :
    entryRequiredAt es i =
      some (isNonNullType ((includedFields node).get ⟨i, hi⟩).type) := by
  obtain ⟨normal, hn, rfl⟩ := toSchemaEntries_ok node schema cfg es h
  obtain ⟨hfst, _, hget⟩ := normalEntriesAux_spec schema cfg (includedFields node) 0 normal hn
  have hlen : normal.length = (includedFields node).length := by
    have := congrArg List.length hfst
    simpa using this
  obtain ⟨cf, hcf⟩ := hget i hi
  have happ :
      (normal ++
        groupEntries node .section (declaredCount node) (sectionNames node) ++
        groupEntries node .tab (declaredCount node + (sectionNames node).length)
          (tabNames node))[i]? = normal[i]? := by
    rw [List.append_assoc]
    exact List.getElem?_append_left (by omega)
  rw [entryRequiredAt, happ, hcf]
  rfl

/-- Concrete input of the claim C7 witness: one required field. -/
def c7wField : FieldDefinitionNode :=
  { name := "title", description := none,
    type := TypeNode.nonNullType (TypeNode.namedType "String"),
    directives := [{ name := "storyblokField", arguments := [] }] }

/-- Concrete input of the claim C7 witness. -/
def c7wNode : ObjectTypeDefinitionNode :=
  { name := "Page", description := none, fields := some [c7wField], directives := [] }

/-- The schema entries of the claim C7 witness input. -/
def c7wEs : List (String × SchemaValue) :=
  (toSchemaEntries c7wNode emptySchema none).toOption.getD []

/-- Witness for C7: on a concrete type definition with one non-null field,
the produced entry's required attribute is true. -/
theorem claim7_witness : entryRequiredAt c7wEs 0 = some true :=
  claim7_theorem c7wNode emptySchema none c7wEs 0 rfl (by decide)

/-! ## Claim C10: inclusion is exactly the storyblokField directive -/

/-- C10: the keys of the output mapping are exactly the names of the
declared fields carrying the storyblokField directive (in declaration
order), followed by the synthesized section and tab group keys: a declared
field contributes an ordinary entry precisely when it carries the
directive, and fields without it are silently omitted. -/
theorem claim10_theorem (node : ObjectTypeDefinitionNode) (schema : GraphQLSchema)
    (cfg : Option CtConfig) (es : List (String × SchemaValue))
    (h : toSchemaEntries node schema cfg = Except.ok es) :
    es.map Prod.fst =
      (includedFields node).map FieldDefinitionNode.name ++
        (sectionNames node).map (groupKeyName GroupKind.section) ++
        (tabNames node).map (groupKeyName GroupKind.tab) := by
  obtain ⟨normal, hn, rfl⟩ := toSchemaEntries_ok node schema cfg es h
  obtain ⟨hfst, _, _⟩ := normalEntriesAux_spec schema cfg (includedFields node) 0 normal hn
  simp [List.map_append, hfst, groupEntries_fst]

/-- Concrete input of the claim C10 witness: one field without the
directive, one with it carrying a tab tag. -/
def c10wHidden : FieldDefinitionNode :=
  { name := "hidden", description := none, type := TypeNode.namedType "String",
    directives := [] }

/-- Concrete input of the claim C10 witness. -/
def c10wShown : FieldDefinitionNode :=
  { name := "shown", description := none, type := TypeNode.namedType "String",
    directives := [{ name := "storyblokField", arguments :=
      [{ name := "tab", value := ValueNode.stringValue "Info" }] }] }

/-- Concrete input of the claim C10 witness. -/
def c10wNode : ObjectTypeDefinitionNode :=
  { name := "Page", description := none, fields := some [c10wHidden, c10wShown],
    directives := [] }

/-- The schema entries of the claim C10 witness input. -/
def c10wEs : List (String × SchemaValue) :=
  (toSchemaEntries c10wNode emptySchema none).toOption.getD []

/-- Witness for C10: the undirected field is silently omitted; the keys are
the directive-carrying field followed by its tab group. -/
theorem claim10_witness : c10wEs.map Prod.fst = ["shown", "tabInfo"] :=
  claim10_theorem c10wNode emptySchema none c10wEs rfl

/-! ## Claim C2: position numbering across fields, sections and tabs -/

/-- The position sequence of a schema mapping result. -/
def schemaPositions (r : Except String (List (String × SchemaValue))) : Option (List Nat) :=
  match r with
  | Except.ok es => some (es.map entryPos)
  | Except.error _ => none

/-- Concrete input of the claim C2 counterexample: a declared field without
the storyblokField directive (excluded from the mapping) next to an
included field carrying a section tag. -/
def c2ceExcluded : FieldDefinitionNode :=
  { name := "plain", description := none, type := TypeNode.namedType "String",
    directives := [] }

/-- Concrete input of the claim C2 counterexample. -/
def c2ceIncluded : FieldDefinitionNode :=
  { name := "titled", description := none, type := TypeNode.namedType "String",
    directives := [{ name := "storyblokField", arguments :=
      [{ name := "section", value := ValueNode.stringValue "S" }] }] }

/-- Concrete input of the claim C2 counterexample. -/
def c2ceNode : ObjectTypeDefinitionNode :=
  { name := "Page", description := none, fields := some [c2ceExcluded, c2ceIncluded],
    directives := [] }

/-- Counterexample to C2: with one declared field excluded from the
mapping, the emitted positions are 0 then 2 — the section group's position
is offset by the declared field count, not the included field count, so
the sequence has a gap and is not 0,1,2,.... -/
theorem claim2_counterexample :
    schemaPositions (toSchemaEntries c2ceNode emptySchema none) = some [0, 2] ∧
    [0, 2] ≠ natRange 0 2 := by
  exact ⟨rfl, by decide⟩

/-- C2 (amended): the emitted positions are the included fields at
0..k-1, then the section groups offset by the declared field count n, then
the tab groups further offset by the section count; the sequence is the
gap-free 0,1,2,... exactly described by the claim whenever every declared
field is included (k = n). -/
theorem claim2_theorem (node : ObjectTypeDefinitionNode) (schema : GraphQLSchema)
    (cfg : Option CtConfig) (es : List (String × SchemaValue))
    (h : toSchemaEntries node schema cfg = Except.ok es) :
    es.map entryPos =
      natRange 0 (includedFields node).length ++
        natRange (declaredCount node) (sectionNames node).length ++
        natRange (declaredCount node + (sectionNames node).length)
          (tabNames node).length ∧
    ((includedFields node).length = declaredCount node →
      es.map entryPos = natRange 0 es.length) := by
  obtain ⟨normal, hn, rfl⟩ := toSchemaEntries_ok node schema cfg es h
  obtain ⟨hfst, hpos, _⟩ := normalEntriesAux_spec schema cfg (includedFields node) 0 normal hn
  have base :
      (normal ++
        groupEntries node .section (declaredCount node) (sectionNames node) ++
        groupEntries node .tab (declaredCount node + (sectionNames node).length)
          (tabNames node)).map entryPos =
      natRange 0 (includedFields node).length ++
        natRange (declaredCount node) (sectionNames node).length ++
        natRange (declaredCount node + (sectionNames node).length)
          (tabNames node).length := by
    simp only [List.map_append, hpos, groupEntries_pos]
  refine ⟨base, ?_⟩
  intro hk
  rw [hk] at base
  have a1 := natRange_append (declaredCount node) 0 (sectionNames node).length
  have a2 := natRange_append (declaredCount node + (sectionNames node).length) 0
    (tabNames node).length
  simp only [Nat.zero_add] at a1 a2
  have e2 : natRange 0 (declaredCount node) ++
      natRange (declaredCount node) (sectionNames node).length ++
      natRange (declaredCount node + (sectionNames node).length) (tabNames node).length =
      natRange 0 (declaredCount node + (sectionNames node).length +
        (tabNames node).length) := by
    rw [a1, a2]
  have hlen : normal.length = (includedFields node).length := by
    have := congrArg List.length hfst
    simpa using this
  have e3 :
      (normal ++
        groupEntries node .section (declaredCount node) (sectionNames node) ++
        groupEntries node .tab (declaredCount node + (sectionNames node).length)
          (tabNames node)).length =
      declaredCount node + (sectionNames node).length + (tabNames node).length := by
    simp only [List.length_append, groupEntries_length, hlen, hk]
  rw [base, e2, e3]

/-- Concrete input of the claim C2 witness: every declared field carries
the directive, one of them tagged with a section. -/
def c2wF1 : FieldDefinitionNode :=
  { name := "title", description := none, type := TypeNode.namedType "String",
    directives := [{ name := "storyblokField", arguments := [] }] }

/-- Concrete input of the claim C2 witness. -/
def c2wF2 : FieldDefinitionNode :=
  { name := "desc", description := none, type := TypeNode.namedType "String",
    directives := [{ name := "storyblokField", arguments :=
      [{ name := "section", value := ValueNode.stringValue "Meta" }] }] }

/-- Concrete input of the claim C2 witness. -/
def c2wNode : ObjectTypeDefinitionNode :=
  { name := "Page", description := none, fields := some [c2wF1, c2wF2],
    directives := [] }

/-- The schema entries of the claim C2 witness input. -/
def c2wEs : List (String × SchemaValue) :=
  (toSchemaEntries c2wNode emptySchema none).toOption.getD []

/-- Witness for the amended C2: on a concrete type definition whose
declared fields are all included, the positions are the gap-free sequence
0, 1, 2. -/
theorem claim2_witness :
    c2wEs.map entryPos =
      natRange 0 (includedFields c2wNode).length ++
        natRange (declaredCount c2wNode) (sectionNames c2wNode).length ++
        natRange (declaredCount c2wNode + (sectionNames c2wNode).length)
          (tabNames c2wNode).length ∧
    ((includedFields c2wNode).length = declaredCount c2wNode →
      c2wEs.map entryPos = natRange 0 c2wEs.length) :=
  claim2_theorem c2wNode emptySchema none c2wEs rfl

/-! ## Claim C1: singular content references -/

/-- The type tag of a classification result, when it succeeded. -/
def resultTag : Except String ComponentField → Option String
  | Except.ok cf => some cf.tag
  | Except.error _ => none

/-- Concrete input of the claim C1 counterexample: a union member tagged
with storyblok type universal. -/
def c1ceAstA : ObjectTypeDefinitionNode :=
  { name := "A", description := none, fields := none, directives :=
      [{ name := "storyblok", arguments :=
        [{ name := "type", value := ValueNode.enumValue "universal" }] }] }

/-- Concrete input of the claim C1 counterexample. -/
def c1ceAstB : ObjectTypeDefinitionNode :=
  { name := "B", description := none, fields := none, directives :=
      [{ name := "storyblok", arguments :=
        [{ name := "type", value := ValueNode.enumValue "universal" }] }] }

/-- Concrete input of the claim C1 counterexample: a union whose every
member is tagged universal. -/
def c1ceSchema : GraphQLSchema :=
  { types := [GraphQLNamedType.unionT "U" (some { types := some ["A", "B"] }),
    GraphQLNamedType.objectT c1ceAstA, GraphQLNamedType.objectT c1ceAstB] }

/-- Concrete input of the claim C1 counterexample. -/
def c1ceField : FieldDefinitionNode :=
  { name := "ref", description := none, type := TypeNode.namedType "U",
    directives := [] }

/-- Counterexample to C1: a singular field referencing a union whose every
member is tagged storyblok type universal classifies as a bloks variant
(the singular path accepts only the exact value contentType), not as the
content-reference option variant the claim requires. -/
theorem claim1_counterexample :
    toComponentField c1ceField (TypeNode.namedType "U") c1ceSchema none =
      Except.ok (ComponentField.bloks (some ["a", "b"]) true (some 0) (some 1)) ∧
    resultTag (toComponentField c1ceField (TypeNode.namedType "U") c1ceSchema none) ≠
      some "option" := by
  exact ⟨rfl, by decide⟩

/-- C1 (amended): a singular field referencing an object type, or a union
type resolved in the schema, classifies as the content-reference option
variant — sourced from internal stories, filtered to the snake-cased
member type names, optionally folder-scoped, with use_uuid set — exactly
when every member type carries the storyblok type directive value
contentType (the value universal is accepted only by the array path); the
referenced name must not be one of the sentinel type names intercepted
earlier. -/
theorem claim1_theorem (f : FieldDefinitionNode) (tname : String)
    (schema : GraphQLSchema) (cfg : Option CtConfig)
    (members : List ObjectTypeDefinitionNode)
    (hres : (∃ ast, schema.getType tname = some (GraphQLNamedType.objectT ast) ∧
        members = [ast]) ∨
      (∃ un ns, schema.getType tname =
          some (GraphQLNamedType.unionT un (some { types := some ns })) ∧
        members = resolveUnionMembers schema ns))
    (hall : ∀ m ∈ members, sbTypeStr m "type" = some "contentType")
    (h1 : tname ≠ "StoryblokAsset") (h2 : tname ≠ "StoryblokLink")
    (h3 : tname ≠ "StoryblokSeo") (h4 : tname ≠ "StoryblokTable") :
    toComponentField f (TypeNode.namedType tname) schema cfg =
      Except.ok (ComponentField.optionStories "internal_stories"
        (some (members.map (fun a => snakeCase a.name)))
        (sbFieldStr f "folder") true) := by
  rcases hres with ⟨ast, hg, hm⟩ | ⟨un, ns, hg, hm⟩
  · subst hm
    have hAll : [ast].all (fun a => sbTypeStr a "type" == some "contentType") = true := by
      rw [List.all_eq_true]
      intro a ha
      simp [hall a ha]
    unfold toComponentField
    simp only [typeName]
    rw [hg]
    simp [h1, h2, h3, h4, objUnionMembers, singularObjUnion, hAll]
  · subst hm
    have hAll : (resolveUnionMembers schema ns).all
        (fun a => sbTypeStr a "type" == some "contentType") = true := by
      rw [List.all_eq_true]
      intro a ha
      simp [hall a ha]
    unfold toComponentField
    simp only [typeName]
    rw [hg]
    simp [h1, h2, h3, h4, objUnionMembers, singularObjUnion, hAll]

/-- Concrete input of the claim C1 witness: a union member tagged with
storyblok type contentType. -/
def c1wAst : ObjectTypeDefinitionNode :=
  { name := "C", description := none, fields := none, directives :=
      [{ name := "storyblok", arguments :=
        [{ name := "type", value := ValueNode.enumValue "contentType" }] }] }

/-- Concrete input of the claim C1 witness. -/
def c1wSchema : GraphQLSchema :=
  { types := [GraphQLNamedType.unionT "W" (some { types := some ["C"] }),
    GraphQLNamedType.objectT c1wAst] }

/-- Concrete input of the claim C1 witness. -/
def c1wField : FieldDefinitionNode :=
  { name := "pick", description := none, type := TypeNode.namedType "W",
    directives := [] }

/-- Witness for the amended C1: a singular field referencing a union whose
single member is tagged contentType classifies as a content-reference
option variant. -/
theorem claim1_witness :
    toComponentField c1wField (TypeNode.namedType "W") c1wSchema none =
      Except.ok (ComponentField.optionStories "internal_stories" (some ["c"]) none true) :=
  claim1_theorem c1wField "W" c1wSchema none [c1wAst]
    (Or.inr ⟨"W", ["C"], rfl, rfl⟩)
    (by
      intro m hm
      rw [List.mem_singleton] at hm
      subst hm
      rfl)
    (by decide) (by decide) (by decide) (by decide)

/-! ## Claim C3: tab group member keys -/

/-- Concrete input of the claim C3 counterexample and witness: a field
tagged only with tab Info. -/
def c3fA : FieldDefinitionNode :=
  { name := "fieldA", description := none, type := TypeNode.namedType "String",
    directives := [{ name := "storyblokField", arguments :=
      [{ name := "tab", value := ValueNode.stringValue "Info" }] }] }

/-- Concrete input of the claim C3 counterexample and witness: a field
tagged with tab Info and section Basics. -/
def c3fB : FieldDefinitionNode :=
  { name := "fieldB", description := none, type := TypeNode.namedType "String",
    directives := [{ name := "storyblokField", arguments :=
      [{ name := "tab", value := ValueNode.stringValue "Info" },
       { name := "section", value := ValueNode.stringValue "Basics" }] }] }

/-- Concrete input of the claim C3 counterexample and witness. -/
def c3node : ObjectTypeDefinitionNode :=
  { name := "Page", description := none, fields := some [c3fA, c3fB],
    directives := [] }

/-- Counterexample to C3: the Info tab group's member list is fieldA,
fieldB, sectionBasics — it contains the section-tagged field name fieldB
directly, contrary to the claim that only the field without a section plus
the section group key appear. -/
theorem claim3_counterexample :
    (toFieldGroupComponentField c3node GroupKind.tab "Info").keys =
      ["fieldA", "fieldB", "sectionBasics"] ∧
    "fieldB" ∈ (toFieldGroupComponentField c3node GroupKind.tab "Info").keys := by
  exact ⟨rfl, by decide⟩

/-- C3 (amended): for a type definition with two fields both tagged with
the same tab value, the second also tagged with a section, the tab group's
member list is both field names in declaration order — including the
section-tagged one — followed by the synthesized section group's key. -/
theorem claim3_theorem (node : ObjectTypeDefinitionNode)
    (f1 f2 : FieldDefinitionNode) (tabN secN : String)
    (hf : node.fields = some [f1, f2])
    (h1t : sbFieldStr f1 "tab" = some tabN)
    (h1s : findStoryblokFieldValue f1 "section" = none)
    (h2t : sbFieldStr f2 "tab" = some tabN)
    (h2s : sbFieldStr f2 "section" = some secN) :
    (toFieldGroupComponentField node GroupKind.tab tabN).keys =
      [f1.name, f2.name, groupKeyName GroupKind.section secN] := by
  have h2sNode : (findStoryblokFieldValue f2 "section").isSome = true := by
    unfold sbFieldStr at h2s
    cases hfind : findStoryblokFieldValue f2 "section" with
    | none => rw [hfind] at h2s; cases h2s
    | some v => rfl
  have h1sStr : sbFieldStr f1 "section" = none := by
    unfold sbFieldStr
    rw [h1s]
    rfl
  unfold toFieldGroupComponentField
  simp [hf, GroupKind.str, h1t, h2t, h1s, h1sStr, h2sNode, h2s, uniqFirst, uniqFirstAux,
    strOrUndefined]

/-- Witness for the amended C3: on the concrete two-field input, the Info
tab group's member list is both field names followed by the section
group's key. -/
theorem claim3_witness :
    (toFieldGroupComponentField c3node GroupKind.tab "Info").keys =
      [c3fA.name, c3fB.name, groupKeyName GroupKind.section "Basics"] :=
  claim3_theorem c3node c3fA c3fB "Info" "Basics" rfl rfl rfl rfl rfl

/-! ## Claim C4: unsupported array element types -/

/-- Does a classification result carry an error? -/
def isErrorResult : Except String ComponentField → Bool
  | Except.error _ => true
  | Except.ok _ => false

/-- Concrete input of the claim C4 counterexample: a list of String with a
datasource directive argument. -/
def c4ceField : FieldDefinitionNode :=
  { name := "tags", description := none,
    type := TypeNode.listType (TypeNode.namedType "String"),
    directives := [{ name := "storyblokField", arguments :=
      [{ name := "datasource", value := ValueNode.stringValue "tags" }] }] }

/-- Counterexample to C4: a list of String with a datasource directive does
not throw — it returns the datasource-sourced options variant. -/
theorem claim4_counterexample :
    toArrayComponentField c4ceField (TypeNode.namedType "String") emptySchema none =
      Except.ok (ComponentField.optionsDatasource "tags" "internal" true) ∧
    isErrorResult
      (toArrayComponentField c4ceField (TypeNode.namedType "String") emptySchema none) =
      false := by
  exact ⟨rfl, by decide⟩

/-- C4 (amended): for a list field whose element type is not resolved in
the schema, classification throws the unsupported-array-type error for
every element name other than String and CtTypeId; a list of String
instead returns the datasource options variant when a truthy datasource
directive argument is present, and throws a datasource-required error (not
the unsupported-type error) when it is absent. -/
theorem claim4_theorem (f : FieldDefinitionNode) (tname : String)
    (schema : GraphQLSchema) (cfg : Option CtConfig)
    (h : schema.getType tname = none) :
    (tname ≠ "String" → tname ≠ "CtTypeId" →
      toArrayComponentField f (TypeNode.namedType tname) schema cfg =
        Except.error ("Unsupported array type " ++ tname)) ∧
    (tname = "String" → strTruthy (sbFieldStr f "datasource") = none →
      toArrayComponentField f (TypeNode.namedType tname) schema cfg =
        Except.error ("Datasource is required for type " ++ tname)) ∧
    (tname = "String" → (strTruthy (sbFieldStr f "datasource")).isSome = true →
      toArrayComponentField f (TypeNode.namedType tname) schema cfg =
        Except.ok (ComponentField.optionsDatasource
          ((strTruthy (sbFieldStr f "datasource")).getD "") "internal" true)) := by
  have hbase : toArrayComponentField f (TypeNode.namedType tname) schema cfg =
      toArrayFallback f (TypeNode.namedType tname) cfg := by
    unfold toArrayComponentField
    simp only [typeName]
    rw [h]
    rfl
  refine ⟨?_, ?_, ?_⟩
  · intro hn1 hn2
    rw [hbase]
    unfold toArrayFallback
    simp only [typeName]
  · intro he hd
    subst he
    rw [hbase]
    unfold toArrayFallback
    simp only [typeName]
    simp [hd]
  · intro he hd
    subst he
    rw [hbase]
    unfold toArrayFallback
    simp only [typeName]
    cases hds : strTruthy (sbFieldStr f "datasource") with
    | none => rw [hds] at hd; cases hd
    | some ds => simp [hds]

/-- Concrete input of the claim C4 witness: a list field of an unresolved,
non-sentinel element type. -/
def c4wField : FieldDefinitionNode :=
  { name := "things", description := none,
    type := TypeNode.listType (TypeNode.namedType "Widget"),
    directives := [] }

/-- Witness for the amended C4: on a concrete list field of the unresolved
element type Widget, classification throws the unsupported-array-type
error; the String conjuncts are instantiated vacuously. -/
theorem claim4_witness :
    ("Widget" ≠ "String" → "Widget" ≠ "CtTypeId" →
      toArrayComponentField c4wField (TypeNode.namedType "Widget") emptySchema none =
        Except.error ("Unsupported array type " ++ "Widget")) ∧
    ("Widget" = "String" → strTruthy (sbFieldStr c4wField "datasource") = none →
      toArrayComponentField c4wField (TypeNode.namedType "Widget") emptySchema none =
        Except.error ("Datasource is required for type " ++ "Widget")) ∧
    ("Widget" = "String" →
      (strTruthy (sbFieldStr c4wField "datasource")).isSome = true →
      toArrayComponentField c4wField (TypeNode.namedType "Widget") emptySchema none =
        Except.ok (ComponentField.optionsDatasource
          ((strTruthy (sbFieldStr c4wField "datasource")).getD "") "internal" true)) :=
  claim4_theorem c4wField "Widget" emptySchema none rfl

/-! ## Claim C5: who the missing-integration-config error names -/

/-- List prefix test used to express substring containment. -/
def isPre [DecidableEq α] : List α → List α → Bool
  | [], _ => true
  | _ :: _, [] => false
  | a :: as, b :: bs => a == b && isPre as bs

/-- Substring containment of character lists: does the needle occur
contiguously inside the haystack? -/
def hasSub [DecidableEq α] (needle : List α) : List α → Bool
  | [] => isPre needle []
  | x :: t => isPre needle (x :: t) || hasSub needle t

/-- Concrete input of the claim C5 counterexample: a CtTypeId field named
productId, classified without an integration configuration. -/
def c5ceField : FieldDefinitionNode :=
  { name := "productId", description := none,
    type := TypeNode.namedType "CtTypeId", directives := [] }

/-- Counterexample to C5: with no integration configuration, classifying
the CtTypeId field productId throws a message that names the offending
type, and the field name productId does not occur in the message. -/
theorem claim5_counterexample :
    toComponentField c5ceField (TypeNode.namedType "CtTypeId") emptySchema none =
      Except.error "Commercetools config is required for type CtTypeId" ∧
    hasSub "productId".toList
      "Commercetools config is required for type CtTypeId".toList = false := by
  exact ⟨rfl, by decide⟩

/-- C5 (amended): for every CtTypeId field, singular or list, classified
without an integration configuration, the thrown missing-config error
names the offending type (the fixed message about type CtTypeId), not the
field. -/
theorem claim5_theorem (f : FieldDefinitionNode) (schema : GraphQLSchema)
    (h : schema.getType "CtTypeId" = none) :
    toComponentField f (TypeNode.namedType "CtTypeId") schema none =
      Except.error ("Commercetools config is required for type " ++ "CtTypeId") ∧
    toArrayComponentField f (TypeNode.namedType "CtTypeId") schema none =
      Except.error ("Commercetools config is required for type " ++ "CtTypeId") := by
  constructor
  · unfold toComponentField
    simp only [typeName]
    rw [h]
    rfl
  · unfold toArrayComponentField
    simp only [typeName]
    rw [h]
    rfl

/-- Concrete input of the claim C5 witness. -/
def c5wField : FieldDefinitionNode :=
  { name := "sku", description := none,
    type := TypeNode.namedType "CtTypeId", directives := [] }

/-- Witness for the amended C5: both the singular and the array classifier
throw the type-naming missing-config error on a concrete CtTypeId
field. -/
theorem claim5_witness :
    toComponentField c5wField (TypeNode.namedType "CtTypeId") emptySchema none =
      Except.error ("Commercetools config is required for type " ++ "CtTypeId") ∧
    toArrayComponentField c5wField (TypeNode.namedType "CtTypeId") emptySchema none =
      Except.error ("Commercetools config is required for type " ++ "CtTypeId") :=
  claim5_theorem c5wField emptySchema rfl

/-! ## Claim C6: richtext toolbar and component restriction -/

/-- Concrete input of the claim C6 counterexample: format richtext and a
blokTypes directive naming one component, but no toolbar directive. -/
def c6ceField : FieldDefinitionNode :=
  { name := "body", description := none, type := TypeNode.namedType "String",
    directives := [{ name := "storyblokField", arguments :=
      [{ name := "format", value := ValueNode.stringValue "richtext" },
       { name := "blokTypes", value := ValueNode.listValue [ValueNode.stringValue "Hero"] }] }] }

/-- Counterexample to C6: with blokTypes naming one component but no
toolbar directive, the produced richtext spec has no toolbar list at all
(the attribute is absent), so its toolbar list cannot end with the blok
sentinel; restrict_components is still set. -/
theorem claim6_counterexample :
    toComponentField c6ceField (TypeNode.namedType "String") emptySchema none =
      Except.ok (ComponentField.richtext none none none none none (some true)
        (some ["hero"])) := rfl

/-- C6 (amended): for a singular String field with format richtext and a
blokTypes directive naming at least one component, restrict_components is
always set; the toolbar list exists only when a toolbar directive is also
present, and then — provided the blok sentinel is not already among the
directive's entries — it is the deduplicated toolbar entries with the blok
sentinel appended as the last element. -/
theorem claim6_theorem (f : FieldDefinitionNode) (schema : GraphQLSchema)
    (cfg : Option CtConfig) (tl : List ValueNode)
    (hS : schema.getType "String" = none)
    (hds : strTruthy (sbFieldStr f "datasource") = none)
    (hct : ¬sbFieldStr f "ctType" = some "category")
    (hfmt : sbFieldStr f "format" = some "richtext")
    (hcomp : hasLen (blokComponentsOf f) = true)
    (htl : sbFieldList f "toolbar" = some tl)
    (hnb : "blok" ∉ (tl.map enumParam?).filterMap id) :
    toComponentField f (TypeNode.namedType "String") schema cfg =
      Except.ok (ComponentField.richtext (sbFieldBool f "rtl") (intArg f "max")
        (some true)
        (some (uniqFirst ((tl.map enumParam?).filterMap id) ++ ["blok"]))
        (allowTB f) (some true) (blokComponentsOf f)) := by
  have htb : richtextToolbarOf f =
      some (uniqFirst ((tl.map enumParam?).filterMap id) ++ ["blok"]) := by
    have hsing : List.filterMap id [some "blok"] = ["blok"] := rfl
    unfold richtextToolbarOf
    rw [htl, Option.map_some']
    rw [if_pos hcomp, List.filterMap_append, hsing, uniqFirst_append_singleton _ _ hnb]
  have h0 : toComponentField f (TypeNode.namedType "String") schema cfg =
      toComponentFieldFallback f (TypeNode.namedType "String") cfg := by
    unfold toComponentField
    simp only [typeName]
    rw [hS]
  have hfall : toComponentFieldFallback f (TypeNode.namedType "String") cfg =
      stringField f cfg := rfl
  have hct2 : (sbFieldStr f "ctType" == some "category") = false := by
    simp [hct]
  rw [h0, hfall]
  unfold stringField
  rw [hds, hct2]
  simp only [Bool.false_eq_true, if_false]
  rw [hfmt]
  unfold richtextField
  rw [htb]
  have hcs : (blokComponentsOf f).isSome = true := hasLen_isSome _ hcomp
  simp [optTrue, hcs]

/-- Concrete input of the claim C6 witness: format richtext, blokTypes
naming one component, and a toolbar directive with one entry. -/
def c6wField : FieldDefinitionNode :=
  { name := "body", description := none, type := TypeNode.namedType "String",
    directives := [{ name := "storyblokField", arguments :=
      [{ name := "format", value := ValueNode.stringValue "richtext" },
       { name := "blokTypes", value := ValueNode.listValue [ValueNode.stringValue "Hero"] },
       { name := "toolbar", value := ValueNode.listValue [ValueNode.enumValue "bold"] }] }] }

/-- Witness for the amended C6: with a toolbar directive present, the
toolbar list ends with the blok sentinel and restrict_components is
set. -/
theorem claim6_witness :
    toComponentField c6wField (TypeNode.namedType "String") emptySchema none =
      Except.ok (ComponentField.richtext none none (some true)
        (some ["bold", "blok"]) none (some true) (some ["hero"])) :=
  claim6_theorem c6wField emptySchema none [ValueNode.enumValue "bold"]
    rfl rfl (by decide) rfl rfl rfl (by decide)

end Storyblok
